import Mathlib

/-!
Shallow embedding of `src/oop_patterns/vector.py` and
`src/oop_patterns/matrix.py` (classes `Vector` and `Matrix`), together with
theorems settling the specification claims about them.

Modelling conventions:
* Python floats are modelled as real numbers (`ℝ`); `x ** 0.5` on the
  non-negative sum of squares is the principal square root `Real.sqrt`.
* A Python method that can `raise` is modelled as a function into
  `Except PyErr _`; the two exception classes the source raises,
  `TypeError` and `ValueError`, are the two constructors of `PyErr`,
  each carrying the exact message string from the source.
* An arbitrary Python operand handed to a binary method is modelled by
  `PyVal`: either a genuine `Vector` or some non-Vector value, of which
  only the type name (used in the error message) is relevant.
* The `Vector` class defines no `__eq__`, `__hash__` or `__len__`; to
  reason about Python's `==`, `hash` and `len` on `Vector` instances we
  record the class attribute table (`Vector.classAttrs`) and model the
  CPython fallback: `==` falls back to object identity and `hash` to an
  identity-derived value when `__eq__`/`__hash__` are absent, and `len`
  raises `TypeError` when `__len__` is absent.  `PyVectorObject` pairs a
  `Vector` value with an object identity for that purpose.
-/

namespace OOP

/-- A Python exception as raised by the source: `TypeError` or `ValueError`
with its message. -/
inductive PyErr where
  | typeError (msg : String)
  | valueError (msg : String)
deriving DecidableEq, Repr

/-- Embedding of the `Vector` class state: `self._components`, the tuple made
from the constructor argument. -/
structure Vector where
  components : List ℝ

/-- An arbitrary Python value passed as the operand of a binary method:
either a `Vector` instance or a non-Vector value with the given type name. -/
inductive PyVal where
  | vec (v : Vector)
  | nonVector (typeName : String)

/-- Embedding of `sum(a**2 for a in self._components)` from
`Vector.magnitude`. -/
def Vector.sumSq (v : Vector) : ℝ :=
  v.components.foldl (fun acc a => acc + a ^ 2) 0

/-- Embedding of `Vector.magnitude`: `sum(a**2 for a in self._components) ** 0.5`.
The base is a non-negative float, so `** 0.5` is the principal square root.
(The memoisation in `self._magnitude` caches a pure value and does not
change the result.) -/
noncomputable def Vector.magnitude (v : Vector) : ℝ :=
  Real.sqrt v.sumSq

/-- Embedding of `Vector.unit_vector`: raises `ValueError` when
`self.magnitude == 0`, otherwise builds `Vector([a / mag for a in self._components])`.
(Memoisation in `self._unit_vector` again caches a pure value.) -/
noncomputable def Vector.unit_vector (v : Vector) : Except PyErr Vector :=
  if v.magnitude = 0 then
    .error (.valueError "Cannot compute unit vector of a zero vector.")
  else
    .ok ⟨v.components.map (fun a => a / v.magnitude)⟩

/-- Embedding of `Vector.__add__`. -/
def Vector.add (v : Vector) (other : PyVal) : Except PyErr Vector :=
  match other with
  | .nonVector t => .error (.typeError ("Cannot add Vector with " ++ t))
  | .vec w =>
    if v.components.length ≠ w.components.length then
      .error (.valueError "Vectors must be of the same dimension to add.")
    else
      .ok ⟨List.zipWith (fun a b => a + b) v.components w.components⟩

/-- Embedding of `Vector.__sub__`. -/
def Vector.sub (v : Vector) (other : PyVal) : Except PyErr Vector :=
  match other with
  | .nonVector t => .error (.typeError ("Cannot subtract Vector with " ++ t))
  | .vec w =>
    if v.components.length ≠ w.components.length then
      .error (.valueError "Vectors must be of the same dimension to subtract.")
    else
      .ok ⟨List.zipWith (fun a b => a - b) v.components w.components⟩

/-- Embedding of `Vector.dot`: `sum(a * b for a, b in zip(...))` after the
type and dimension checks. -/
def Vector.dot (v : Vector) (other : PyVal) : Except PyErr ℝ :=
  match other with
  | .nonVector t =>
      .error (.typeError ("Cannot compute dot product with " ++ t))
  | .vec w =>
    if v.components.length ≠ w.components.length then
      .error
        (.valueError "Vectors must be of the same dimension to compute dot product.")
    else
      .ok ((List.zipWith (fun a b => a * b) v.components w.components).foldl
        (fun acc x => acc + x) 0)

/-- The attribute names defined in the body of `class Vector` in
`vector.py`, in source order.  Notably absent: `__eq__`, `__hash__`,
`__len__`. -/
def Vector.classAttrs : List String :=
  ["__init__", "components", "magnitude", "unit_vector",
   "__add__", "__sub__", "dot", "__repr__", "__str__"]

/-- A `Vector` instance as a Python object: its identity (`id`) together
with its `Vector` state. -/
structure PyVectorObject where
  id : Nat
  value : Vector

/-- Python `==` on two `Vector` instances: were `__eq__` defined on the
class it would be used; since it is not, CPython falls back to
`object.__eq__`, which is object identity. -/
def pyVecEq (a b : PyVectorObject) : Prop :=
  if "__eq__" ∈ Vector.classAttrs then a.value = b.value else a.id = b.id

/-- Python `hash` on a `Vector` instance: were `__hash__` defined on the
class it would be used; since it is not, CPython falls back to
`object.__hash__`, a value derived from the object identity. -/
def pyVecHash (a : PyVectorObject) : Nat :=
  if "__hash__" ∈ Vector.classAttrs then 0 else a.id

/-- Python `len` on a `Vector` instance: the class defines no `__len__`,
so `len` raises `TypeError`; were `__len__` present it would return the
number of components. -/
def pyVecLen (a : PyVectorObject) : Except PyErr Nat :=
  if "__len__" ∈ Vector.classAttrs then .ok a.value.components.length
  else .error (.typeError "object of type 'Vector' has no len()")

/-- Embedding of the `Matrix` class state: `self.data`, `self.rows`,
`self.cols`. -/
structure Matrix where
  data : List (List ℝ)
  rows : Nat
  cols : Nat

/-- Embedding of `Matrix.__init__`: raises `ValueError` when
`not data or not all(len(row) == len(data[0]) for row in data)`, otherwise
stores `data`, `rows = len(data)`, `cols = len(data[0])`. -/
def Matrix.make (data : List (List ℝ)) : Except PyErr Matrix :=
  if data.isEmpty ∨ ¬ (∀ row ∈ data, row.length = (data.headD []).length) then
    .error (.valueError "All rows must have the same number of columns.")
  else
    .ok ⟨data, data.length, (data.headD []).length⟩

/-- Entry access `self.data[i][j]` (total, with a default outside the
range; within a validated matrix all accesses are in range). -/
def Matrix.entry (m : Matrix) (i j : Nat) : ℝ :=
  (m.data.getD i []).getD j 0

/-- Embedding of `Matrix.__add__` after its `isinstance` check: raises
`ValueError` when `self.rows != other.rows or self.cols != other.cols`,
otherwise builds the elementwise-sum rows and returns `Matrix(result)`
(which re-runs the constructor validation). -/
def Matrix.add (m other : Matrix) : Except PyErr Matrix :=
  if m.rows ≠ other.rows ∨ m.cols ≠ other.cols then
    .error (.valueError "Matrices must have the same dimensions to add.")
  else
    Matrix.make ((List.range m.rows).map fun i =>
      (List.range m.cols).map fun j => m.entry i j + other.entry i j)

/-- Embedding of `Matrix.__sub__` after its `isinstance` check, symmetric
to `Matrix.add`. -/
def Matrix.sub (m other : Matrix) : Except PyErr Matrix :=
  if m.rows ≠ other.rows ∨ m.cols ≠ other.cols then
    .error (.valueError "Matrices must have the same dimensions to subtract.")
  else
    Matrix.make ((List.range m.rows).map fun i =>
      (List.range m.cols).map fun j => m.entry i j - other.entry i j)

end OOP

/-! Helper lemmas about lists, used to relate the folds/zips of the
embedding to indexwise and big-operator statements. -/

/-- Indexing a mapped list with a default, inside the range. -/
theorem getD_map_of_lt {α β : Type} (f : α → β) (l : List α) (d : α) (d' : β)
    (i : Nat) (h : i < l.length) : (l.map f).getD i d' = f (l.getD i d) := by
  induction l generalizing i with
  | nil => simp at h
  | cons a t ih =>
    cases i with
    | zero => rfl
    | succ j => exact ih j (by simpa using h)

/-- Indexing a zipped list with a default, inside both ranges. -/
theorem getD_zipWith_of_lt {α : Type} (f : α → α → α) (xs ys : List α) (d : α)
    (i : Nat) (hx : i < xs.length) (hy : i < ys.length) :
    (List.zipWith f xs ys).getD i d = f (xs.getD i d) (ys.getD i d) := by
  induction xs generalizing ys i with
  | nil => simp at hx
  | cons a xt ih =>
    cases ys with
    | nil => simp at hy
    | cons b yt =>
      cases i with
      | zero => rfl
      | succ j => exact ih yt j (by simpa using hx) (by simpa using hy)

/-- Indexing `List.range` with a default, inside the range. -/
theorem getD_range_of_lt (n i d : Nat) (h : i < n) :
    (List.range n).getD i d = i := by
  rw [List.getD_eq_getElem?_getD, List.getElem?_eq_getElem (by simpa using h)]
  simp

/-- A left fold of addition over the reals is the starting value plus the
list sum. -/
theorem foldl_add_eq_sum (l : List ℝ) (c : ℝ) :
    l.foldl (fun acc x => acc + x) c = c + l.sum := by
  induction l generalizing c with
  | nil => simp
  | cons a t ih => simp [ih, add_assoc]

/-- A list sum over the reals as a big operator over positions, using
default-valued indexing. -/
theorem list_sum_eq_finset_sum (l : List ℝ) (n : Nat) (h : l.length = n) :
    l.sum = ∑ i ∈ Finset.range n, l.getD i 0 := by
  induction l generalizing n with
  | nil => simp [← h]
  | cons a t ih =>
    subst h
    rw [List.sum_cons, List.length_cons, Finset.sum_range_succ']
    simp [ih t.length rfl]
    ring

namespace OOP

/-- C1: refuted at the code. The spec claims `Vector` equality is value
equality on the components with a consistent hash, but `class Vector`
defines neither `__eq__` nor `__hash__`, so Python `==` falls back to
object identity and `hash` to an identity-derived value: two distinct
instances built from the same components `[1, 2, 3]` compare unequal and
hash differently, contradicting the spec (and the repository's own test
`test_vector_equality_and_hashing`). -/
theorem vector_eq_defaults_to_identity :
    "__eq__" ∉ Vector.classAttrs ∧ "__hash__" ∉ Vector.classAttrs ∧
    ¬ pyVecEq ⟨0, ⟨[1, 2, 3]⟩⟩ ⟨1, ⟨[1, 2, 3]⟩⟩ ∧
    pyVecHash ⟨0, ⟨[1, 2, 3]⟩⟩ ≠ pyVecHash ⟨1, ⟨[1, 2, 3]⟩⟩ := by
  refine ⟨by decide, by decide, ?_, ?_⟩
  · rw [pyVecEq, if_neg (by decide)]
    simp
  · simp [pyVecHash, Vector.classAttrs]

/-- C2: refuted at the code. The spec claims a length operation returning
the dimension (`len(Vector([1,2,3,4])) == 4`), but `class Vector` defines
no `__len__`, so `len` on a `Vector` instance raises `TypeError`,
contradicting the spec (and the repository's own test
`test_vector_length`). -/
theorem vector_len_raises_typeError :
    "__len__" ∉ Vector.classAttrs ∧
    pyVecLen ⟨0, ⟨[1, 2, 3, 4]⟩⟩ =
      .error (.typeError "object of type 'Vector' has no len()") := by
  refine ⟨by decide, ?_⟩
  rw [pyVecLen, if_neg (by decide)]

/-- The fold in `Vector.sumSq` is the sum of the squared components. -/
theorem sumSq_eq_map_sum (v : Vector) :
    v.sumSq = (v.components.map (fun a => a ^ 2)).sum := by
  rw [Vector.sumSq, ← List.foldl_map (fun a : ℝ => a ^ 2) (fun acc x => acc + x),
    foldl_add_eq_sum, zero_add]

/-- The sum of squares as a big operator over component positions. -/
theorem sumSq_eq_finset_sum (v : Vector) :
    v.sumSq = ∑ i ∈ Finset.range v.components.length, v.components.getD i 0 ^ 2 := by
  rw [sumSq_eq_map_sum,
    list_sum_eq_finset_sum _ v.components.length (by simp)]
  refine Finset.sum_congr rfl fun i hi => ?_
  exact getD_map_of_lt _ _ 0 0 i (by simpa using hi)

/-- Concrete computation: the magnitude of the vector `[3, 4]` is `5`. -/
theorem magnitude_three_four : Vector.magnitude ⟨[3, 4]⟩ = 5 := by
  rw [Vector.magnitude]
  have h : Vector.sumSq ⟨[3, 4]⟩ = 25 := by
    rw [Vector.sumSq]
    norm_num
  rw [h, show (25 : ℝ) = 5 ^ 2 by norm_num, Real.sqrt_sq (by norm_num : (0 : ℝ) ≤ 5)]

/-- Concrete computation: the magnitude of the zero vector `[0, 0]` is `0`. -/
theorem magnitude_zero_zero : Vector.magnitude ⟨[0, 0]⟩ = 0 := by
  rw [Vector.magnitude]
  have h : Vector.sumSq ⟨[0, 0]⟩ = 0 := by
    rw [Vector.sumSq]
    norm_num
  rw [h, Real.sqrt_zero]

/-- C4: `unit_vector` raises `ValueError` (the spec's `DomainError`)
exactly when the magnitude is zero; otherwise it returns the vector whose
i-th component is the i-th component divided by the magnitude. -/
theorem unit_vector_spec (v : Vector) :
    (v.unit_vector =
        .error (.valueError "Cannot compute unit vector of a zero vector.") ↔
      v.magnitude = 0) ∧
    (v.magnitude ≠ 0 →
      v.unit_vector = .ok ⟨v.components.map (fun a => a / v.magnitude)⟩ ∧
      ∀ i, i < v.components.length →
        (v.components.map (fun a => a / v.magnitude)).getD i 0 =
          v.components.getD i 0 / v.magnitude) := by
  rw [Vector.unit_vector]
  by_cases h : v.magnitude = 0
  · rw [if_pos h]
    exact ⟨by simp [h], fun hn => absurd h hn⟩
  · rw [if_neg h]
    refine ⟨by simp [h], fun _ => ⟨rfl, fun i hi => ?_⟩⟩
    exact getD_map_of_lt _ _ 0 0 i hi

/-- Witness for `unit_vector_spec`: the unit vector of `[3, 4]` is
`[0.6, 0.8]`, and on the zero vector `[0, 0]` the `ValueError` is
raised. -/
theorem unit_vector_spec_witness :
    Vector.unit_vector ⟨[3, 4]⟩ = .ok ⟨[0.6, 0.8]⟩ ∧
    Vector.unit_vector ⟨[0, 0]⟩ =
      .error (.valueError "Cannot compute unit vector of a zero vector.") := by
  constructor
  · have h := ((unit_vector_spec ⟨[3, 4]⟩).2 (by rw [magnitude_three_four]; norm_num)).1
    rw [h, magnitude_three_four]
    norm_num
  · exact (unit_vector_spec ⟨[0, 0]⟩).1.mpr magnitude_zero_zero

/-- C8: the magnitude is the Euclidean norm, the square root of the sum of
the squared components; in particular the magnitude of `[3, 4]` is
exactly `5.0`. -/
theorem magnitude_spec (v : Vector) :
    v.magnitude =
      Real.sqrt (∑ i ∈ Finset.range v.components.length,
        v.components.getD i 0 ^ 2) ∧
    Vector.magnitude ⟨[3, 4]⟩ = 5 := by
  constructor
  · rw [Vector.magnitude, sumSq_eq_finset_sum]
  · exact magnitude_three_four

/-- C5: each of `add`, `sub` and `dot` raises `TypeError` (the spec's
`TypeMismatchError`) on a non-Vector operand, raises `ValueError` (the
spec's `DimensionMismatchError`) on a Vector operand of different
dimension, and succeeds otherwise — there is no other failure mode, and
all failures happen at the point of the call. -/
theorem vector_binop_errors (a : Vector) (x : PyVal) :
    (∀ t, x = .nonVector t →
      a.add x = .error (.typeError ("Cannot add Vector with " ++ t)) ∧
      a.sub x = .error (.typeError ("Cannot subtract Vector with " ++ t)) ∧
      a.dot x = .error (.typeError ("Cannot compute dot product with " ++ t))) ∧
    (∀ w, x = .vec w → a.components.length ≠ w.components.length →
      a.add x =
        .error (.valueError "Vectors must be of the same dimension to add.") ∧
      a.sub x =
        .error (.valueError "Vectors must be of the same dimension to subtract.") ∧
      a.dot x =
        .error
          (.valueError
            "Vectors must be of the same dimension to compute dot product.")) ∧
    (∀ w, x = .vec w → a.components.length = w.components.length →
      (∃ r, a.add x = .ok r) ∧ (∃ r, a.sub x = .ok r) ∧ (∃ r, a.dot x = .ok r)) := by
  refine ⟨?_, ?_, ?_⟩
  · intro t ht
    subst ht
    exact ⟨rfl, rfl, rfl⟩
  · intro w hw hne
    subst hw
    refine ⟨?_, ?_, ?_⟩
    · simp only [Vector.add]
      rw [if_pos hne]
    · simp only [Vector.sub]
      rw [if_pos hne]
    · simp only [Vector.dot]
      rw [if_pos hne]
  · intro w hw heq
    subst hw
    refine
      ⟨⟨⟨List.zipWith (fun x y => x + y) a.components w.components⟩, ?_⟩,
       ⟨⟨List.zipWith (fun x y => x - y) a.components w.components⟩, ?_⟩,
       ⟨(List.zipWith (fun x y => x * y) a.components w.components).foldl
          (fun acc x => acc + x) 0, ?_⟩⟩
    · simp only [Vector.add]
      rw [if_neg (fun hn => hn heq)]
    · simp only [Vector.sub]
      rw [if_neg (fun hn => hn heq)]
    · simp only [Vector.dot]
      rw [if_neg (fun hn => hn heq)]

/-- Witness for `vector_binop_errors`: `[1,2] + [1,2,3]` raises the
dimension `ValueError`, a non-Vector operand raises `TypeError`, and
operands of equal dimension succeed. -/
theorem vector_binop_errors_witness :
    Vector.add ⟨[1, 2]⟩ (.vec ⟨[1, 2, 3]⟩) =
      .error (.valueError "Vectors must be of the same dimension to add.") ∧
    Vector.dot ⟨[1, 2]⟩ (.nonVector "int") =
      .error (.typeError "Cannot compute dot product with int") ∧
    ∃ r, Vector.add ⟨[1, 2]⟩ (.vec ⟨[3, 4]⟩) = .ok r := by
  refine ⟨?_, ?_, ?_⟩
  · exact ((vector_binop_errors ⟨[1, 2]⟩ (.vec ⟨[1, 2, 3]⟩)).2.1 ⟨[1, 2, 3]⟩ rfl
      (by simp)).1
  · exact ((vector_binop_errors ⟨[1, 2]⟩ (.nonVector "int")).1 "int" rfl).2.2
  · exact ((vector_binop_errors ⟨[1, 2]⟩ (.vec ⟨[3, 4]⟩)).2.2 ⟨[3, 4]⟩ rfl
      (by simp)).1

/-- C6: on Vectors of equal dimension `n`, `add` returns the vector of
pairwise sums, `sub` the vector of pairwise differences, and `dot` the sum
of the pairwise products, each without modifying the operands (the
embedding's operations are pure functions of the operands). -/
theorem vector_binop_values (a b : Vector) (n : Nat)
    (ha : a.components.length = n) (hb : b.components.length = n) :
    (∃ c, a.add (.vec b) = .ok c ∧ c.components.length = n ∧
      ∀ i, i < n →
        c.components.getD i 0 = a.components.getD i 0 + b.components.getD i 0) ∧
    (∃ c, a.sub (.vec b) = .ok c ∧ c.components.length = n ∧
      ∀ i, i < n →
        c.components.getD i 0 = a.components.getD i 0 - b.components.getD i 0) ∧
    a.dot (.vec b) =
      .ok (∑ i ∈ Finset.range n,
        a.components.getD i 0 * b.components.getD i 0) := by
  have hlen : a.components.length = b.components.length := ha.trans hb.symm
  have hcond : ¬ a.components.length ≠ b.components.length := fun hn => hn hlen
  refine
    ⟨⟨⟨List.zipWith (fun x y => x + y) a.components b.components⟩, ?_, ?_, ?_⟩,
     ⟨⟨List.zipWith (fun x y => x - y) a.components b.components⟩, ?_, ?_, ?_⟩,
     ?_⟩
  · simp only [Vector.add]
    rw [if_neg hcond]
  · simp [ha, hb]
  · intro i hi
    exact getD_zipWith_of_lt _ _ _ 0 i (ha ▸ hi) (hb ▸ hi)
  · simp only [Vector.sub]
    rw [if_neg hcond]
  · simp [ha, hb]
  · intro i hi
    exact getD_zipWith_of_lt _ _ _ 0 i (ha ▸ hi) (hb ▸ hi)
  · simp only [Vector.dot]
    rw [if_neg hcond]
    congr 1
    rw [foldl_add_eq_sum, zero_add,
      list_sum_eq_finset_sum _ n (by simp [ha, hb])]
    refine Finset.sum_congr rfl fun i hi => ?_
    exact getD_zipWith_of_lt _ _ _ 0 i (ha ▸ (by simpa using hi))
      (hb ▸ (by simpa using hi))

/-- Witness for `vector_binop_values`: `dot([1,2,3],[4,5,6]) = 32`,
`[1,2,3] + [4,5,6]` has components `5, 7, 9`, and `[4,5,6] - [1,2,3]`
has components `3, 3, 3`. -/
theorem vector_binop_values_witness :
    Vector.dot ⟨[1, 2, 3]⟩ (.vec ⟨[4, 5, 6]⟩) = .ok 32 ∧
    (∃ c, Vector.add ⟨[1, 2, 3]⟩ (.vec ⟨[4, 5, 6]⟩) = .ok c ∧
      c.components.getD 0 0 = 5 ∧ c.components.getD 1 0 = 7 ∧
      c.components.getD 2 0 = 9) ∧
    (∃ c, Vector.sub ⟨[4, 5, 6]⟩ (.vec ⟨[1, 2, 3]⟩) = .ok c ∧
      c.components.getD 0 0 = 3 ∧ c.components.getD 1 0 = 3 ∧
      c.components.getD 2 0 = 3) := by
  refine ⟨?_, ?_, ?_⟩
  · have h := (vector_binop_values ⟨[1, 2, 3]⟩ ⟨[4, 5, 6]⟩ 3 (by simp) (by simp)).2.2
    rw [h]
    congr 1
    rw [Finset.sum_range_succ, Finset.sum_range_succ, Finset.sum_range_succ,
      Finset.sum_range_zero]
    norm_num [List.getD]
  · obtain ⟨c, hc, -, hget⟩ :=
      (vector_binop_values ⟨[1, 2, 3]⟩ ⟨[4, 5, 6]⟩ 3 (by simp) (by simp)).1
    refine ⟨c, hc, ?_, ?_, ?_⟩
    · have := hget 0 (by norm_num)
      rw [this]
      norm_num [List.getD]
    · have := hget 1 (by norm_num)
      rw [this]
      norm_num [List.getD]
    · have := hget 2 (by norm_num)
      rw [this]
      norm_num [List.getD]
  · obtain ⟨c, hc, -, hget⟩ :=
      (vector_binop_values ⟨[4, 5, 6]⟩ ⟨[1, 2, 3]⟩ 3 (by simp) (by simp)).2.1
    refine ⟨c, hc, ?_, ?_, ?_⟩
    · have := hget 0 (by norm_num)
      rw [this]
      norm_num [List.getD]
    · have := hget 1 (by norm_num)
      rw [this]
      norm_num [List.getD]
    · have := hget 2 (by norm_num)
      rw [this]
      norm_num [List.getD]

/-- C7: vector addition is commutative — on Vectors of equal dimension,
`a + b` and `b + a` return the same Vector. -/
theorem vector_add_comm (a b : Vector)
    (h : a.components.length = b.components.length) :
    a.add (.vec b) = b.add (.vec a) := by
  simp only [Vector.add]
  rw [if_neg (fun hn => hn h), if_neg (fun hn => hn h.symm)]
  exact congrArg (fun l => Except.ok (Vector.mk l))
    (List.zipWith_comm_of_comm _ (fun x y => add_comm x y) _ _)

/-- Witness for `vector_add_comm` at `[1,2,3]` and `[4,5,6]`. -/
theorem vector_add_comm_witness :
    Vector.add ⟨[1, 2, 3]⟩ (.vec ⟨[4, 5, 6]⟩) =
      Vector.add ⟨[4, 5, 6]⟩ (.vec ⟨[1, 2, 3]⟩) :=
  vector_add_comm ⟨[1, 2, 3]⟩ ⟨[4, 5, 6]⟩ (by simp)

/-- C3: `Matrix` construction raises `ValueError` (the spec's
`ValidationError`) exactly when the data is empty or some row's length
differs from the first row's length; otherwise it succeeds, storing the
data, `rows` = count of rows and `cols` = length of the first row. -/
theorem matrix_make_spec (data : List (List ℝ)) :
    (Matrix.make data =
        .error (.valueError "All rows must have the same number of columns.") ↔
      data = [] ∨ ∃ row ∈ data, row.length ≠ (data.headD []).length) ∧
    ∀ m, Matrix.make data = .ok m →
      m.data = data ∧ m.rows = data.length ∧ m.cols = (data.headD []).length := by
  rw [Matrix.make]
  by_cases h : data.isEmpty ∨ ¬ (∀ row ∈ data, row.length = (data.headD []).length)
  · rw [if_pos h]
    constructor
    · constructor
      · intro _
        rcases h with h | h
        · exact Or.inl (List.isEmpty_iff.mp h)
        · push_neg at h
          exact Or.inr h
      · intro _
        rfl
    · intro m hm
      exact absurd hm (by simp)
  · rw [if_neg h]
    push_neg at h
    obtain ⟨h1, h2⟩ := h
    constructor
    · constructor
      · intro hcontra
        exact absurd hcontra (by simp)
      · intro hbad
        exfalso
        rcases hbad with hd | ⟨row, hrow, hne⟩
        · subst hd
          simp at h1
        · exact hne (h2 row hrow)
    · intro m hm
      cases hm
      exact ⟨rfl, rfl, rfl⟩

/-- Witness for `matrix_make_spec` at concrete inputs: ragged data
`[[1,2],[3]]` is rejected, and `[[1,2],[3,4]]` is accepted with
`rows = 2`, `cols = 2`. -/
theorem matrix_make_spec_witness :
    Matrix.make [[(1 : ℝ), 2], [3]] =
      .error (.valueError "All rows must have the same number of columns.") ∧
    ∃ m, Matrix.make [[(1 : ℝ), 2], [3, 4]] = .ok m ∧
      m.rows = 2 ∧ m.cols = 2 := by
  constructor
  · exact (matrix_make_spec [[(1 : ℝ), 2], [3]]).1.mpr
      (Or.inr ⟨[3], by simp, by simp⟩)
  · cases hm : Matrix.make [[(1 : ℝ), 2], [3, 4]] with
    | error e =>
      rw [Matrix.make, if_neg (by simp)] at hm
      exact absurd hm (by simp)
    | ok m =>
      obtain ⟨-, h2, h3⟩ := (matrix_make_spec [[(1 : ℝ), 2], [3, 4]]).2 m hm
      exact ⟨m, rfl, by simpa using h2, by simpa using h3⟩

/-- Constructor success: on non-empty data all of whose rows have length
`c`, `Matrix.make` succeeds and stores the data, the row count and `c`. -/
theorem matrix_make_ok (data : List (List ℝ)) (c : Nat) (hne : data ≠ [])
    (hall : ∀ row ∈ data, row.length = c) :
    Matrix.make data = .ok ⟨data, data.length, c⟩ := by
  match data, hne with
  | r :: t, _ =>
    have hr : r.length = c := hall r (by simp)
    have hcond : ¬ ((r :: t).isEmpty ∨
        ¬ (∀ row ∈ r :: t, row.length = ((r :: t).headD []).length)) := by
      push_neg
      refine ⟨by simp, fun row hrow => ?_⟩
      simp [hall row hrow, hr]
    rw [Matrix.make, if_neg hcond]
    simp [hr]

/-- C9: on two constructed matrices with equal row and column counts,
`add` returns a new matrix of elementwise sums and `sub` of elementwise
differences; on any two matrices with differing row or column counts both
raise `ValueError` (the spec's `DimensionMismatchError`). -/
theorem matrix_binop_spec (da db : List (List ℝ)) (A B : Matrix)
    (hA : Matrix.make da = .ok A) (_hB : Matrix.make db = .ok B)
    (hr : A.rows = B.rows) (hc : A.cols = B.cols) :
    (∃ C, A.add B = .ok C ∧ C.rows = A.rows ∧ C.cols = A.cols ∧
      ∀ i j, i < A.rows → j < A.cols →
        C.entry i j = A.entry i j + B.entry i j) ∧
    (∃ C, A.sub B = .ok C ∧ C.rows = A.rows ∧ C.cols = A.cols ∧
      ∀ i j, i < A.rows → j < A.cols →
        C.entry i j = A.entry i j - B.entry i j) ∧
    (∀ X Y : Matrix, X.rows ≠ Y.rows ∨ X.cols ≠ Y.cols →
      X.add Y =
        .error (.valueError "Matrices must have the same dimensions to add.") ∧
      X.sub Y =
        .error
          (.valueError "Matrices must have the same dimensions to subtract.")) := by
  obtain ⟨hdata, hrows, hcols⟩ := (matrix_make_spec da).2 A hA
  have hane : da ≠ [] := by
    intro hnil
    rw [(matrix_make_spec da).1.mpr (Or.inl hnil)] at hA
    exact absurd hA (by simp)
  have hrowspos : A.rows ≠ 0 := by
    rw [hrows]
    exact fun h0 => hane (List.length_eq_zero.mp h0)
  have hcondneg : ¬ (A.rows ≠ B.rows ∨ A.cols ≠ B.cols) :=
    fun hcontra => hcontra.elim (fun h => h hr) (fun h => h hc)
  refine ⟨?_, ?_, ?_⟩
  · have hall : ∀ row ∈ (List.range A.rows).map (fun i =>
        (List.range A.cols).map fun j => A.entry i j + B.entry i j),
        row.length = A.cols := by
      intro row hrow
      obtain ⟨i, -, rfl⟩ := List.mem_map.mp hrow
      simp
    have hne' : (List.range A.rows).map (fun i =>
        (List.range A.cols).map fun j => A.entry i j + B.entry i j) ≠ [] := by
      intro h0
      have := congrArg List.length h0
      simp at this
      exact hrowspos this
    refine ⟨⟨(List.range A.rows).map (fun i =>
        (List.range A.cols).map fun j => A.entry i j + B.entry i j),
      ((List.range A.rows).map (fun i =>
        (List.range A.cols).map fun j => A.entry i j + B.entry i j)).length,
      A.cols⟩, ?_, by simp, rfl, ?_⟩
    · rw [Matrix.add, if_neg hcondneg]
      exact matrix_make_ok _ A.cols hne' hall
    · intro i j hi hj
      rw [Matrix.entry]
      show (((List.range A.rows).map fun i =>
        (List.range A.cols).map fun j => A.entry i j + B.entry i j).getD i
          []).getD j 0 = _
      rw [getD_map_of_lt _ (List.range A.rows) 0 [] i (by simpa using hi),
        getD_range_of_lt _ _ _ hi,
        getD_map_of_lt _ (List.range A.cols) 0 0 j (by simpa using hj),
        getD_range_of_lt _ _ _ hj]
  · have hall : ∀ row ∈ (List.range A.rows).map (fun i =>
        (List.range A.cols).map fun j => A.entry i j - B.entry i j),
        row.length = A.cols := by
      intro row hrow
      obtain ⟨i, -, rfl⟩ := List.mem_map.mp hrow
      simp
    have hne' : (List.range A.rows).map (fun i =>
        (List.range A.cols).map fun j => A.entry i j - B.entry i j) ≠ [] := by
      intro h0
      have := congrArg List.length h0
      simp at this
      exact hrowspos this
    refine ⟨⟨(List.range A.rows).map (fun i =>
        (List.range A.cols).map fun j => A.entry i j - B.entry i j),
      ((List.range A.rows).map (fun i =>
        (List.range A.cols).map fun j => A.entry i j - B.entry i j)).length,
      A.cols⟩, ?_, by simp, rfl, ?_⟩
    · rw [Matrix.sub, if_neg hcondneg]
      exact matrix_make_ok _ A.cols hne' hall
    · intro i j hi hj
      rw [Matrix.entry]
      show (((List.range A.rows).map fun i =>
        (List.range A.cols).map fun j => A.entry i j - B.entry i j).getD i
          []).getD j 0 = _
      rw [getD_map_of_lt _ (List.range A.rows) 0 [] i (by simpa using hi),
        getD_range_of_lt _ _ _ hi,
        getD_map_of_lt _ (List.range A.cols) 0 0 j (by simpa using hj),
        getD_range_of_lt _ _ _ hj]
  · intro X Y hmm
    constructor
    · rw [Matrix.add, if_pos hmm]
    · rw [Matrix.sub, if_pos hmm]

/-- Witness for `matrix_binop_spec`: `[[1,2,3],[4,5,6]] + [[7,8,9],[10,11,12]]`
succeeds with entries `8` at `(0,0)` and `18` at `(1,2)`, and matrices of
mismatched dimensions raise the `ValueError` on both `add` and `sub`. -/
theorem matrix_binop_spec_witness :
    (∃ C, Matrix.add ⟨[[1, 2, 3], [4, 5, 6]], 2, 3⟩
        ⟨[[7, 8, 9], [10, 11, 12]], 2, 3⟩ = .ok C ∧
      C.rows = 2 ∧ C.cols = 3 ∧ C.entry 0 0 = 8 ∧ C.entry 1 2 = 18) ∧
    Matrix.add ⟨[[1, 2]], 1, 2⟩ ⟨[[1, 2, 3]], 1, 3⟩ =
      .error (.valueError "Matrices must have the same dimensions to add.") ∧
    Matrix.sub ⟨[[1, 2]], 1, 2⟩ ⟨[[1, 2, 3]], 1, 3⟩ =
      .error (.valueError "Matrices must have the same dimensions to subtract.") := by
  have hA : Matrix.make [[(1 : ℝ), 2, 3], [4, 5, 6]] =
      .ok ⟨[[1, 2, 3], [4, 5, 6]], 2, 3⟩ := by
    have := matrix_make_ok [[(1 : ℝ), 2, 3], [4, 5, 6]] 3 (by simp) (by simp)
    simpa using this
  have hB : Matrix.make [[(7 : ℝ), 8, 9], [10, 11, 12]] =
      .ok ⟨[[7, 8, 9], [10, 11, 12]], 2, 3⟩ := by
    have := matrix_make_ok [[(7 : ℝ), 8, 9], [10, 11, 12]] 3 (by simp) (by simp)
    simpa using this
  have hmain := matrix_binop_spec _ _ _ _ hA hB rfl rfl
  refine ⟨?_, ?_, ?_⟩
  · obtain ⟨C, hC, hCr, hCc, hent⟩ := hmain.1
    refine ⟨C, hC, hCr, hCc, ?_, ?_⟩
    · rw [hent 0 0 (by norm_num) (by norm_num)]
      norm_num [Matrix.entry, List.getD]
    · rw [hent 1 2 (by norm_num) (by norm_num)]
      norm_num [Matrix.entry, List.getD]
  · exact (hmain.2.2 ⟨[[1, 2]], 1, 2⟩ ⟨[[1, 2, 3]], 1, 3⟩ (Or.inr (by norm_num))).1
  · exact (hmain.2.2 ⟨[[1, 2]], 1, 2⟩ ⟨[[1, 2, 3]], 1, 3⟩ (Or.inr (by norm_num))).2

/-- C10: construction succeeds on any non-empty data all of whose rows are
empty, yielding a matrix with at least one row and zero columns — the
raggedness check only compares against the first row's length, so empty
rows are not rejected. -/
theorem matrix_zero_cols_spec (data : List (List ℝ)) (h1 : data ≠ [])
    (h2 : ∀ row ∈ data, row.length = 0) :
    ∃ m, Matrix.make data = .ok m ∧ m.rows = data.length ∧ 1 ≤ m.rows ∧
      m.cols = 0 := by
  refine ⟨⟨data, data.length, 0⟩, matrix_make_ok data 0 h1 h2, rfl, ?_, rfl⟩
  exact Nat.pos_of_ne_zero (fun h0 => h1 (List.length_eq_zero.mp h0))

/-- Witness for `matrix_zero_cols_spec`: `Matrix([[], []])` succeeds with
`rows = 2` and `cols = 0`. -/
theorem matrix_zero_cols_spec_witness :
    ∃ m, Matrix.make [([] : List ℝ), []] = .ok m ∧ m.rows = 2 ∧ m.cols = 0 := by
  obtain ⟨m, hm, hrw, -, hcl⟩ :=
    matrix_zero_cols_spec [([] : List ℝ), []] (by simp) (by simp)
  exact ⟨m, hm, by simpa using hrw, hcl⟩

end OOP
